import Mathlib

/-!
Shallow embedding of `list_of_jobs4.py` (stellenwerk-scrapper).

The script is a sequential web scraper.  Network I/O is modelled by a fetch
oracle `String → Option Soup`: `none` stands for any exception raised by
`requests.get` / `raise_for_status` (the only exception source inside the
`try` blocks), `some soup` for a successfully fetched and parsed page.
A `Soup` abstracts the BeautifulSoup document: the list of its elements in
document order together with the whole-page text.  Each `Elem` records the
data the script queries: tag name, CSS classes, `get_text(strip=True)`,
`get_text(separator=" ", strip=True)`, and the optional `href` attribute.
Found tags are always truthy in bs4 (`Tag.__bool__` returns `True`), so a
found element is used even when its text is empty; `Option Elem` encodes
found / not-found exactly.  Sleeps and console prints are dropped; the
timestamp of `save_to_csv` is an explicit parameter.
-/

namespace Stellenwerk

/-- Character-list test: `pat` is an initial segment of `l`. -/
def leadsWith : List Char → List Char → Bool
  | [], _ => true
  | _ :: _, [] => false
  | p :: ps, c :: cs => p == c && leadsWith ps cs

/-- Character-list test: `pat` occurs contiguously inside `l`. -/
def hasSub (pat : List Char) : List Char → Bool
  | [] => leadsWith pat []
  | c :: cs => leadsWith pat (c :: cs) || hasSub pat cs

/-- Python's `pat in s` substring test. -/
def strContains (s pat : String) : Bool := hasSub pat.data s.data

/-- Python's `s[:n]` character slice. -/
def strTake (s : String) (n : Nat) : String := ⟨s.data.take n⟩

/-- Python's `s.lower()` (ASCII case folding, character by character). -/
def strLower (s : String) : String := ⟨s.data.map Char.toLower⟩

/-- One HTML element as the script queries it via BeautifulSoup. -/
structure Elem where
  tag : String
  classes : List String
  /-- result of `get_text(strip=True)` on this element -/
  textStrip : String
  /-- result of `get_text(separator=" ", strip=True)` on this element -/
  textSpaceSep : String
  href : Option String
deriving DecidableEq, Repr

/-- A parsed page: elements in document order plus the whole-page text
`soup.get_text(separator=" ", strip=True)`. -/
structure Soup where
  elems : List Elem
  pageTextSpaceSep : String
deriving DecidableEq, Repr

/-- `soup.find(t)` for a tag name. -/
def findTag (soup : Soup) (t : String) : Option Elem :=
  soup.elems.find? (fun e => e.tag == t)

/-- `soup.find(class_='c')`: matches when `c` is one of the element's classes. -/
def findClassExact (soup : Soup) (c : String) : Option Elem :=
  soup.elems.find? (fun e => e.classes.contains c)

/-- `soup.find(class_=lambda x: x and kw in x.lower())`: some class contains `kw`. -/
def findLooseClass (soup : Soup) (kw : String) : Option Elem :=
  soup.elems.find? (fun e => e.classes.any (fun c => strContains (strLower c) kw))

/-- `soup.find('div', class_=lambda x: x and kw in x.lower())`. -/
def findDivLooseClass (soup : Soup) (kw : String) : Option Elem :=
  soup.elems.find? (fun e => e.tag == "div" && e.classes.any (fun c => strContains (strLower c) kw))

/-- `soup.find(lambda tag: tag.name == "a" and phrase in tag.get_text(strip=True).lower())`. -/
def findAnchorWithText (soup : Soup) (phrase : String) : Option Elem :=
  soup.elems.find? (fun e => e.tag == "a" && strContains (strLower e.textStrip) phrase)

/-- The anchor's `href` when the first phrase-matching anchor exists and has one
(`if anchor and 'href' in anchor.attrs`). -/
def anchorHref (soup : Soup) (phrase : String) : Option String :=
  match findAnchorWithText soup phrase with
  | some a => a.href
  | none => none

/-- `scrape_click_value`: fetch the page, take the text of the first
description-classed div, else the whole-page text, and truncate to 200
characters; any fetch failure degrades to the sentinel. -/
def scrape_click_value (fetch : String → Option Soup) (url : String) : String :=
  match fetch url with
  | none => "N/A"
  | some soup =>
      match findDivLooseClass soup "description" with
      | some e => strTake e.textSpaceSep 200
      | none => strTake soup.pageTextSpaceSep 200

/-- Sub-link resolution in `scrape_job_details`:
`if not link.startswith("http"): link = "https://www.stellenwerk.de" + link`. -/
def resolveSub (link : String) : String :=
  if leadsWith "http".data link.data then link else "https://www.stellenwerk.de" ++ link

/-- The output record (CSV dict) of `scrape_job_details`. -/
structure JobRecord where
  Title : String
  Company : String
  Location : String
  Salary : String
  PostedDate : String
  URL : String
  DeinJob : String
  DeinProfil : String
deriving DecidableEq, Repr

/-- Python `a or b` on two `find` results (a found tag is always truthy). -/
def pyOr : Option Elem → Option Elem → Option Elem
  | some e, _ => some e
  | none, b => b

/-- `elem.get_text(strip=True) if elem else "N/A"`. -/
def textOrNA : Option Elem → String
  | some e => e.textStrip
  | none => "N/A"

/-- The dein-job / dein-profil sub-value: follow the first phrase-matching
anchor's href (resolved) through `scrape_click_value`, else keep the sentinel. -/
def clickValueOf (fetch : String → Option Soup) (soup : Soup) (phrase : String) : String :=
  match anchorHref soup phrase with
  | some link => scrape_click_value fetch (resolveSub link)
  | none => "N/A"

/-- The record built by `scrape_job_details` from a successfully fetched page. -/
def extractRecord (fetch : String → Option Soup) (full_url : String) (soup : Soup) : JobRecord :=
  { Title := textOrNA (pyOr (findTag soup "h1") (findLooseClass soup "title"))
    Company := textOrNA (pyOr (findClassExact soup "company-name")
      (pyOr (findLooseClass soup "employer") (findTag soup "h2")))
    Location := textOrNA (pyOr (findClassExact soup "job-location") (findLooseClass soup "location"))
    Salary := textOrNA (pyOr (findClassExact soup "salary") (findLooseClass soup "gehalt"))
    PostedDate := textOrNA (pyOr (findClassExact soup "posting-date") (findLooseClass soup "date"))
    URL := full_url
    DeinJob := clickValueOf fetch soup "dein job"
    DeinProfil := clickValueOf fetch soup "dein profil" }

/-- `scrape_job_details`: the page address is built by unconditionally prefixing
the base host (`full_url = f"https://www.stellenwerk.de{url}"`); a failed fetch
makes the whole call return `None`. -/
def scrape_job_details (fetch : String → Option Soup) (url : String) : Option JobRecord :=
  match fetch ("https://www.stellenwerk.de" ++ url) with
  | some soup => some (extractRecord fetch ("https://www.stellenwerk.de" ++ url) soup)
  | none => none

def BASE_URL : String := "https://www.stellenwerk.de/hamburg"

/-- Index page address `f"{BASE_URL}?pagination%5Bstart%5D={start}"`. -/
def page_url (start : Nat) : String :=
  BASE_URL ++ "?pagination%5Bstart%5D=" ++ toString start

/-- `not any(x in href for x in ["account", "login", "register"])`. -/
def keepHref (h : String) : Bool :=
  !(strContains h "account" || strContains h "login" || strContains h "register")

/-- `scrape_page`: fetch the index page, select every anchor href containing
the listing-path marker (`a[href*="/hamburg/"]`), drop account/login/register
links, deduplicate (`list(set(...))`); a failed fetch degrades to `[]`. -/
def scrape_page (fetch : String → Option Soup) (start : Nat) : List String :=
  match fetch (page_url start) with
  | none => []
  | some soup =>
      ((soup.elems.filterMap (fun e => if e.tag == "a" then e.href else none)).filter
        (fun h => strContains h "/hamburg/" && keepHref h)).dedup

def BATCH_SIZE : Nat := 5

/-- Result of the inner `for _ in range(BATCH_SIZE)` loop of `scrape_in_batches`:
the accumulated records, the cursor after the loop, and the cursors scanned. -/
structure BatchOut where
  jobs : List JobRecord
  next : Nat
  pages : List Nat
deriving DecidableEq, Repr

/-- The inner batch loop: scan up to `k` pages from `start`; an empty page
breaks without advancing the cursor; otherwise every link goes through
`extract` and non-absent records accumulate, then the cursor advances by 10. -/
def runBatch (scan : Nat → List String) (extract : String → Option JobRecord) :
    Nat → Nat → BatchOut
  | 0, start => ⟨[], start, []⟩
  | k + 1, start =>
      if scan start = [] then ⟨[], start, [start]⟩
      else
        ⟨(scan start).filterMap extract ++ (runBatch scan extract k (start + 10)).jobs,
         (runBatch scan extract k (start + 10)).next,
         start :: (runBatch scan extract k (start + 10)).pages⟩

/-- Result of `scrape_in_batches`: all records, every cursor at which a page
was scanned, the final cursor, and whether the run stopped via the
`else: break` on an empty batch (as opposed to the budget test). -/
structure CrawlOut where
  records : List JobRecord
  scanned : List Nat
  finalStart : Nat
  emptyBatchStop : Bool
deriving DecidableEq, Repr

/-- The `while start < max_pages * 10` loop of `scrape_in_batches`.  `fuel`
bounds the number of outer iterations; each iteration either stops or advances
the cursor by at least 10, so `fuel = max_pages` makes the fuel-out case
coincide with the budget-exhausted exit (see `crawlAux_fuel_adequate`). -/
def crawlAux (scan : Nat → List String) (extract : String → Option JobRecord)
    (max_pages : Nat) : Nat → Nat → CrawlOut
  | 0, start => ⟨[], [], start, false⟩
  | fuel + 1, start =>
      if start < max_pages * 10 then
        if (runBatch scan extract BATCH_SIZE start).jobs = [] then
          ⟨[], (runBatch scan extract BATCH_SIZE start).pages,
           (runBatch scan extract BATCH_SIZE start).next, true⟩
        else
          ⟨(runBatch scan extract BATCH_SIZE start).jobs ++
             (crawlAux scan extract max_pages fuel
               (runBatch scan extract BATCH_SIZE start).next).records,
           (runBatch scan extract BATCH_SIZE start).pages ++
             (crawlAux scan extract max_pages fuel
               (runBatch scan extract BATCH_SIZE start).next).scanned,
           (crawlAux scan extract max_pages fuel
             (runBatch scan extract BATCH_SIZE start).next).finalStart,
           (crawlAux scan extract max_pages fuel
             (runBatch scan extract BATCH_SIZE start).next).emptyBatchStop⟩
      else ⟨[], [], start, false⟩

/-- `scrape_in_batches`: the composed crawl, scanning with `scrape_page` and
extracting with `scrape_job_details` over one fetch oracle. -/
def scrape_in_batches (fetch : String → Option Soup) (max_pages : Nat) : CrawlOut :=
  crawlAux (scrape_page fetch) (scrape_job_details fetch) max_pages max_pages 0

/-- CSV writer model (Python `csv` module, excel dialect, QUOTE_MINIMAL). -/
def escapeList : List Char → List Char
  | [] => []
  | c :: cs => if c = '"' then '"' :: '"' :: escapeList cs else c :: escapeList cs

/-- Double every quote character, as the csv module does inside quoted fields. -/
def escapeQuotes (s : String) : String := ⟨escapeList s.data⟩

/-- QUOTE_MINIMAL: quote a field iff it holds a delimiter, quote, CR or LF. -/
def needsQuoting (s : String) : Bool :=
  s.data.any (fun c => c = ',' || c = '"' || c = '\r' || c = '\n')

/-- Serialize one CSV field. -/
def csvField (s : String) : String :=
  if needsQuoting s then "\"" ++ escapeQuotes s ++ "\"" else s

/-- Comma-join of serialized fields. -/
def joinComma : List String → String
  | [] => ""
  | [f] => f
  | f :: g :: rest => f ++ "," ++ joinComma (g :: rest)

/-- One written CSV row, terminated by CRLF (the csv module's default). -/
def csvLine (fields : List String) : String :=
  joinComma (fields.map csvField) ++ "\r\n"

/-- The `fieldnames` list passed to `csv.DictWriter`. -/
def headerFields : List String :=
  ["Title", "Company", "Location", "Salary", "Posted Date", "URL", "Dein Job", "Dein Profil"]

/-- The values of one record in the fixed column order. -/
def record_row (r : JobRecord) : List String :=
  [r.Title, r.Company, r.Location, r.Salary, r.PostedDate, r.URL, r.DeinJob, r.DeinProfil]

/-- `writer.writerows(jobs)`. -/
def writeRows : List JobRecord → String
  | [] => ""
  | r :: rest => csvLine (record_row r) ++ writeRows rest

/-- `save_to_csv`: the produced filename and the full file text.  The batch
filename is chosen by Python truthiness (`if batch_num:`), so `0` and `None`
both fall to the unbatched name; `timestamp` stands for
`datetime.now().strftime('%Y-%m-%d_%H-%M')`. -/
def save_to_csv (jobs : List JobRecord) (batch_num : Option Nat) (timestamp : String) :
    String × String :=
  let filename :=
    match batch_num with
    | some n =>
        if n ≠ 0 then "stellenwerk_jobs_batch" ++ toString n ++ "_" ++ timestamp ++ ".csv"
        else "stellenwerk_jobs_" ++ timestamp ++ ".csv"
    | none => "stellenwerk_jobs_" ++ timestamp ++ ".csv"
  (filename, csvLine headerFields ++ writeRows jobs)

/-- Number of line feeds in a string: the number of lines of a text file whose
every line is newline-terminated. -/
def countLF (s : String) : Nat := s.data.count '\n'

/-! Helper lemmas about the embedding. -/

theorem strTake_length_le (s : String) (n : Nat) : (strTake s n).length ≤ n :=
  List.length_take_le n s.data

theorem scrape_click_value_length (fetch : String → Option Soup) (url : String) :
    (scrape_click_value fetch url).length ≤ 200 := by
  unfold scrape_click_value
  split
  · decide
  · split
    · exact strTake_length_le ..
    · exact strTake_length_le ..

theorem runBatch_next_ge (scan : Nat → List String) (extract : String → Option JobRecord)
    (k start : Nat) : start ≤ (runBatch scan extract k start).next := by
  induction k generalizing start with
  | zero => simp [runBatch]
  | succ k ih =>
      simp only [runBatch]
      split
      · exact Nat.le_refl _
      · exact Nat.le_trans (Nat.le_add_right start 10) (ih (start + 10))

theorem runBatch_next_of_jobs (scan : Nat → List String) (extract : String → Option JobRecord)
    (k start : Nat) (h : (runBatch scan extract k start).jobs ≠ []) :
    start + 10 ≤ (runBatch scan extract k start).next := by
  cases k with
  | zero => simp [runBatch] at h
  | succ k =>
      by_cases hs : scan start = []
      · simp [runBatch, hs] at h
      · simp only [runBatch, if_neg hs]
        exact runBatch_next_ge scan extract k (start + 10)

theorem runBatch_pages_lb (scan : Nat → List String) (extract : String → Option JobRecord)
    (k start c : Nat) (hc : c ∈ (runBatch scan extract k start).pages) : start ≤ c := by
  induction k generalizing start with
  | zero => simp [runBatch] at hc
  | succ k ih =>
      simp only [runBatch] at hc
      split at hc
      · simp at hc; omega
      · rcases List.mem_cons.mp hc with h | h
        · omega
        · have := ih (start + 10) h
          omega

theorem runBatch_pages_ub (scan : Nat → List String) (extract : String → Option JobRecord)
    (k start c : Nat) (hc : c ∈ (runBatch scan extract k start).pages) :
    c + 10 ≤ start + 10 * k := by
  induction k generalizing start with
  | zero => simp [runBatch] at hc
  | succ k ih =>
      simp only [runBatch] at hc
      split at hc
      · simp at hc; omega
      · rcases List.mem_cons.mp hc with h | h
        · omega
        · have := ih (start + 10) h
          omega

theorem runBatch_self_mem_pages (scan : Nat → List String) (extract : String → Option JobRecord)
    (k start : Nat) (hk : 0 < k) : start ∈ (runBatch scan extract k start).pages := by
  cases k with
  | zero => omega
  | succ k =>
      simp only [runBatch]
      split
      · simp
      · simp

theorem runBatch_break_at (scan : Nat → List String) (extract : String → Option JobRecord)
    (k start c : Nat) (hc : c ∈ (runBatch scan extract k start).pages)
    (hempty : scan c = []) : (runBatch scan extract k start).next = c := by
  induction k generalizing start with
  | zero => simp [runBatch] at hc
  | succ k ih =>
      by_cases hs : scan start = []
      · simp only [runBatch, if_pos hs] at hc ⊢
        simp at hc
        omega
      · simp only [runBatch, if_neg hs] at hc ⊢
        rcases List.mem_cons.mp hc with h | h
        · subst h; exact absurd hempty hs
        · exact ih (start + 10) h

theorem crawlAux_scanned_bound (scan : Nat → List String) (extract : String → Option JobRecord)
    (max_pages : Nat) (fuel start c : Nat)
    (hc : c ∈ (crawlAux scan extract max_pages fuel start).scanned) :
    c + 10 < max_pages * 10 + 10 * BATCH_SIZE := by
  induction fuel generalizing start with
  | zero => simp [crawlAux] at hc
  | succ fuel ih =>
      simp only [crawlAux] at hc
      split at hc
      · split at hc
        · have := runBatch_pages_ub scan extract BATCH_SIZE start c hc
          omega
        · simp only [CrawlOut.mk.injEq] at hc
          rcases List.mem_append.mp hc with h | h
          · have := runBatch_pages_ub scan extract BATCH_SIZE start c h
            omega
          · exact ih _ h
      · simp at hc

theorem crawlAux_stop_cond (scan : Nat → List String) (extract : String → Option JobRecord)
    (max_pages : Nat) (fuel start : Nat) (hfuel : max_pages * 10 ≤ start + 10 * fuel) :
    (crawlAux scan extract max_pages fuel start).emptyBatchStop = true ∨
      max_pages * 10 ≤ (crawlAux scan extract max_pages fuel start).finalStart := by
  induction fuel generalizing start with
  | zero =>
      right
      simpa [crawlAux] using (by omega : max_pages * 10 ≤ start)
  | succ fuel ih =>
      simp only [crawlAux]
      split
      · split
        · left; rfl
        · have hnext := runBatch_next_of_jobs scan extract BATCH_SIZE start (by assumption)
          have := ih ((runBatch scan extract BATCH_SIZE start).next) (by omega)
          simpa using this
      · right
        simpa using (by omega : max_pages * 10 ≤ start)

theorem crawlAux_succ (scan : Nat → List String) (extract : String → Option JobRecord)
    (max_pages fuel start : Nat) :
    crawlAux scan extract max_pages (fuel + 1) start =
      if start < max_pages * 10 then
        if (runBatch scan extract BATCH_SIZE start).jobs = [] then
          ⟨[], (runBatch scan extract BATCH_SIZE start).pages,
           (runBatch scan extract BATCH_SIZE start).next, true⟩
        else
          ⟨(runBatch scan extract BATCH_SIZE start).jobs ++
             (crawlAux scan extract max_pages fuel
               (runBatch scan extract BATCH_SIZE start).next).records,
           (runBatch scan extract BATCH_SIZE start).pages ++
             (crawlAux scan extract max_pages fuel
               (runBatch scan extract BATCH_SIZE start).next).scanned,
           (crawlAux scan extract max_pages fuel
             (runBatch scan extract BATCH_SIZE start).next).finalStart,
           (crawlAux scan extract max_pages fuel
             (runBatch scan extract BATCH_SIZE start).next).emptyBatchStop⟩
      else ⟨[], [], start, false⟩ := rfl

theorem crawlAux_fuel_adequate (scan : Nat → List String) (extract : String → Option JobRecord)
    (max_pages : Nat) (fuel start : Nat) (hfuel : max_pages * 10 ≤ start + 10 * fuel) :
    crawlAux scan extract max_pages (fuel + 1) start =
      crawlAux scan extract max_pages fuel start := by
  induction fuel generalizing start with
  | zero =>
      have : ¬ start < max_pages * 10 := by omega
      simp [crawlAux, this]
  | succ fuel ih =>
      rw [crawlAux_succ scan extract max_pages (fuel + 1) start,
        crawlAux_succ scan extract max_pages fuel start]
      by_cases hlt : start < max_pages * 10
      · by_cases hb : (runBatch scan extract BATCH_SIZE start).jobs = []
        · simp only [if_pos hlt, if_pos hb]
        · have hnext := runBatch_next_of_jobs scan extract BATCH_SIZE start hb
          have heq := ih ((runBatch scan extract BATCH_SIZE start).next) (by omega)
          simp only [if_pos hlt, if_neg hb]
          rw [heq]
      · simp only [if_neg hlt]

theorem crawl_rescan (scan : Nat → List String) (extract : String → Option JobRecord)
    (max_pages fuel start c : Nat)
    (hlt : start < max_pages * 10)
    (hb : (runBatch scan extract BATCH_SIZE start).jobs ≠ [])
    (hc : c ∈ (runBatch scan extract BATCH_SIZE start).pages)
    (hce : scan c = [])
    (hcb : c < max_pages * 10) :
    2 ≤ (crawlAux scan extract max_pages (fuel + 2) start).scanned.count c := by
  have hnext : (runBatch scan extract BATCH_SIZE start).next = c :=
    runBatch_break_at scan extract BATCH_SIZE start c hc hce
  rw [crawlAux_succ]
  simp only [if_pos hlt, if_neg hb]
  show 2 ≤ ((runBatch scan extract BATCH_SIZE start).pages ++
      (crawlAux scan extract max_pages (fuel + 1)
        (runBatch scan extract BATCH_SIZE start).next).scanned).count c
  rw [hnext, List.count_append]
  have h1 : 0 < (runBatch scan extract BATCH_SIZE start).pages.count c :=
    List.count_pos_iff.mpr hc
  have h2 : c ∈ (crawlAux scan extract max_pages (fuel + 1) c).scanned := by
    rw [crawlAux_succ]
    simp only [if_pos hcb]
    split
    · show c ∈ (runBatch scan extract BATCH_SIZE c).pages
      exact runBatch_self_mem_pages scan extract BATCH_SIZE c (by decide)
    · show c ∈ (runBatch scan extract BATCH_SIZE c).pages ++
        (crawlAux scan extract max_pages fuel
          (runBatch scan extract BATCH_SIZE c).next).scanned
      exact List.mem_append.mpr
        (Or.inl (runBatch_self_mem_pages scan extract BATCH_SIZE c (by decide)))
  have h3 : 0 < (crawlAux scan extract max_pages (fuel + 1) c).scanned.count c :=
    List.count_pos_iff.mpr h2
  omega

/-- Ordered fallback chain over element-selection strategies, taking the first
found element (Python's chained `or` over `find` results). -/
def chainFind : List (Soup → Option Elem) → Soup → Option Elem
  | [], _ => none
  | f :: fs, s => pyOr (f s) (chainFind fs s)

/-- The Title selector chain of `scrape_job_details`, as an explicit list. -/
def titleStrategies : List (Soup → Option Elem) :=
  [fun s => findTag s "h1", fun s => findLooseClass s "title"]

/-- The Company selector chain of `scrape_job_details`, as an explicit list. -/
def companyStrategies : List (Soup → Option Elem) :=
  [fun s => findClassExact s "company-name", fun s => findLooseClass s "employer",
   fun s => findTag s "h2"]

/-- The Location selector chain of `scrape_job_details`, as an explicit list. -/
def locationStrategies : List (Soup → Option Elem) :=
  [fun s => findClassExact s "job-location", fun s => findLooseClass s "location"]

/-- The Salary selector chain of `scrape_job_details`, as an explicit list. -/
def salaryStrategies : List (Soup → Option Elem) :=
  [fun s => findClassExact s "salary", fun s => findLooseClass s "gehalt"]

/-- The Posted-Date selector chain of `scrape_job_details`, as an explicit list. -/
def dateStrategies : List (Soup → Option Elem) :=
  [fun s => findClassExact s "posting-date", fun s => findLooseClass s "date"]

/-- Comparison definition following the claim's words, not the code: apply the
strategies in order and take the text of the first match whose text is
non-empty ("taking the first non-empty match"), else the sentinel. -/
def firstNonEmptyText : List (Soup → Option Elem) → Soup → String
  | [], _ => "N/A"
  | f :: fs, s =>
      match f s with
      | some e => if e.textStrip = "" then firstNonEmptyText fs s else e.textStrip
      | none => firstNonEmptyText fs s

theorem pyOr_none (a : Option Elem) : pyOr a none = a := by
  cases a <;> rfl

theorem chainFind_pair (f g : Soup → Option Elem) (s : Soup) :
    chainFind [f, g] s = pyOr (f s) (g s) := by
  simp [chainFind, pyOr_none]

theorem chainFind_triple (f g h : Soup → Option Elem) (s : Soup) :
    chainFind [f, g, h] s = pyOr (f s) (pyOr (g s) (h s)) := by
  simp [chainFind, pyOr_none]

theorem pyOr_eq_some {a b : Option Elem} {e : Elem} (h : pyOr a b = some e) :
    a = some e ∨ b = some e := by
  cases a with
  | some x => left; simpa [pyOr] using h
  | none => right; simpa [pyOr] using h

/-- The sentinel-completeness shape of one structured field: sentinel, or the
stripped text of some element of the page. -/
def fieldFrom (soup : Soup) (v : String) : Prop :=
  v = "N/A" ∨ ∃ e, e ∈ soup.elems ∧ v = e.textStrip

theorem fieldFrom_textOrNA {soup : Soup} {o : Option Elem}
    (h : ∀ e, o = some e → e ∈ soup.elems) : fieldFrom soup (textOrNA o) := by
  cases o with
  | none => exact Or.inl rfl
  | some e => exact Or.inr ⟨e, h e rfl, rfl⟩

theorem strData_append (a b : String) : (a ++ b).data = a.data ++ b.data := by
  cases a; cases b; rfl

theorem count_lf_escapeList (l : List Char) : (escapeList l).count '\n' = l.count '\n' := by
  induction l with
  | nil => rfl
  | cons c cs ih =>
      by_cases h : c = '"'
      · subst h
        simp [escapeList, List.count_cons, ih]
      · simp [escapeList, h, List.count_cons, ih]

theorem count_lf_csvField {s : String} (h : s.data.count '\n' = 0) :
    (csvField s).data.count '\n' = 0 := by
  unfold csvField
  split
  · rw [strData_append, strData_append, List.count_append, List.count_append]
    rw [show (escapeQuotes s).data = escapeList s.data from rfl, count_lf_escapeList, h]
    decide
  · exact h

theorem count_lf_joinComma (fs : List String) (h : ∀ f ∈ fs, f.data.count '\n' = 0) :
    (joinComma fs).data.count '\n' = 0 := by
  induction fs with
  | nil => rfl
  | cons f rest ih =>
      cases rest with
      | nil => simpa [joinComma] using h f (by simp)
      | cons g rest' =>
          have h1 := h f (by simp)
          have h2 : ∀ x ∈ g :: rest', x.data.count '\n' = 0 := fun x hx => h x (by simp [hx])
          show ((f ++ "," ++ joinComma (g :: rest'))).data.count '\n' = 0
          rw [strData_append, strData_append, List.count_append, List.count_append]
          rw [h1, ih h2]
          rfl

theorem count_lf_csvLine (fields : List String) (h : ∀ f ∈ fields, f.data.count '\n' = 0) :
    (csvLine fields).data.count '\n' = 1 := by
  unfold csvLine
  rw [strData_append, List.count_append]
  have hz : (joinComma (fields.map csvField)).data.count '\n' = 0 := by
    refine count_lf_joinComma _ ?_
    intro f hf
    rcases List.mem_map.mp hf with ⟨g, hg, rfl⟩
    exact count_lf_csvField (h g hg)
  rw [hz]
  rfl

theorem count_lf_writeRows (jobs : List JobRecord)
    (h : ∀ r ∈ jobs, ∀ f ∈ record_row r, f.data.count '\n' = 0) :
    (writeRows jobs).data.count '\n' = jobs.length := by
  induction jobs with
  | nil => rfl
  | cons r rest ih =>
      show ((csvLine (record_row r) ++ writeRows rest)).data.count '\n' = rest.length + 1
      rw [strData_append, List.count_append]
      rw [count_lf_csvLine _ (h r (by simp)), ih (fun x hx => h x (by simp [hx]))]
      omega

theorem clickValueOf_length (fetch : String → Option Soup) (soup : Soup) (phrase : String) :
    (clickValueOf fetch soup phrase).length ≤ 200 := by
  unfold clickValueOf
  split
  · exact scrape_click_value_length ..
  · decide

theorem findTag_mem {soup : Soup} {t : String} {e : Elem} (h : findTag soup t = some e) :
    e ∈ soup.elems :=
  List.mem_of_find?_eq_some h

theorem findClassExact_mem {soup : Soup} {c : String} {e : Elem}
    (h : findClassExact soup c = some e) : e ∈ soup.elems :=
  List.mem_of_find?_eq_some h

theorem findLooseClass_mem {soup : Soup} {kw : String} {e : Elem}
    (h : findLooseClass soup kw = some e) : e ∈ soup.elems :=
  List.mem_of_find?_eq_some h

/-! Concrete pages and fetch oracles used as inputs for witnesses and
counterexamples. -/

/-- A page with no elements. -/
def soupEmpty : Soup := ⟨[], ""⟩

/-- An index page carrying one job link. -/
def idxSoup : Soup := ⟨[⟨"a", [], "", "", some "/hamburg/x"⟩], ""⟩

/-- Oracle: every index page has one link, every other page is empty but loads. -/
def fetchAllPages : String → Option Soup :=
  fun u => if strContains u "pagination" then some idxSoup else some soupEmpty

/-- Oracle: every index page has one link, every job-page fetch fails. -/
def fetchJobsFail : String → Option Soup :=
  fun u => if strContains u "pagination" then some idxSoup else none

/-- Oracle: every fetch succeeds with an empty page. -/
def fetchAlways : String → Option Soup := fun _ => some soupEmpty

/-- A job page with an empty `h1` and a later element whose class contains
`title` and whose text is non-empty. -/
def soupTitle : Soup := ⟨[⟨"h1", [], "", "", none⟩, ⟨"div", ["job-title"], "X", "X", none⟩], ""⟩

/-- Oracle serving `soupTitle` at the resolved address of link `/j`. -/
def fetchTitle : String → Option Soup :=
  fun u => if u = "https://www.stellenwerk.de/j" then some soupTitle else none

/-- A job page whose only element is an empty `h1`. -/
def soupEmptyH1 : Soup := ⟨[⟨"h1", [], "", "", none⟩], ""⟩

/-- Oracle serving `soupEmptyH1` at the resolved address of link `/j`. -/
def fetchEmptyH1 : String → Option Soup :=
  fun u => if u = "https://www.stellenwerk.de/j" then some soupEmptyH1 else none

/-- The index page of the spec's dedup scenario: two identical job links and
one account link. -/
def soupScenario : Soup :=
  ⟨[⟨"a", [], "", "", some "/hamburg/jobs/1"⟩, ⟨"a", [], "", "", some "/hamburg/jobs/1"⟩,
    ⟨"a", [], "", "", some "/hamburg/account/x"⟩], ""⟩

/-- Oracle serving the dedup-scenario page at pagination offset 0. -/
def fetchScenario : String → Option Soup :=
  fun u => if u = page_url 0 then some soupScenario else none

/-- A job page with a "Dein Job" anchor whose target fetch will fail. -/
def soupDeinJob : Soup := ⟨[⟨"a", [], "Dein Job", "Dein Job", some "/sub"⟩], ""⟩

/-- Oracle serving `soupDeinJob` at the resolved address of link `/j8` and
failing on every other address (in particular on the anchor target). -/
def fetchDeinJob : String → Option Soup :=
  fun u => if u = "https://www.stellenwerk.de/j8" then some soupDeinJob else none

/-- Oracle: the index page at offset 0 has one link, every later index page is
empty, and job pages load empty. -/
def fetchFirstPageOnly : String → Option Soup :=
  fun u => if u = page_url 0 then some idxSoup else some soupEmpty

/-- A record whose every text field is the sentinel. -/
def sampleJob : JobRecord :=
  ⟨"N/A", "N/A", "N/A", "N/A", "N/A", "https://www.stellenwerk.de/x", "N/A", "N/A"⟩

/-- Abstract scan oracle: one link at offset 0, nothing afterwards. -/
def scanW : Nat → List String := fun n => if n = 0 then ["/hamburg/a"] else []

/-- Abstract extract oracle: every link yields a record. -/
def extractW : String → Option JobRecord := fun _ => some sampleJob

/-! Claim theorems. -/

/-- C1 counterexample: with `maxPages = 1` and an oracle whose every index page
is non-empty, the run scans the page at cursor 20 (and up to 40), so the
cursor is processed beyond `N * 10 = 10`: the inner batch loop of
`scrape_in_batches` runs `BATCH_SIZE` pages without re-checking the budget. -/
theorem C1_counterexample :
    20 ∈ (scrape_in_batches fetchAllPages 1).scanned ∧ 1 * 10 < 20 :=
  ⟨by decide, by decide⟩

/-- C1 (amended): `run(maxPages=N)` terminates for every oracle, and every
cursor at which a page is scanned is below `N * 10 + 40`: the batch of
`BATCH_SIZE = 5` pages in progress when the budget expires is completed, so
the overshoot is at most 4 page-iterations. -/
theorem C1_amended (fetch : String → Option Soup) (max_pages c : Nat)
    (hc : c ∈ (scrape_in_batches fetch max_pages).scanned) :
    c < max_pages * 10 + 40 := by
  have h := crawlAux_scanned_bound (scrape_page fetch) (scrape_job_details fetch)
    max_pages max_pages 0 c hc
  simp [BATCH_SIZE] at h
  omega

/-- C1 witness: the amended bound applied at the concrete run of
`C1_counterexample`'s oracle, at the largest scanned cursor 40 < 50. -/
theorem C1_witness : 40 < 1 * 10 + 40 :=
  C1_amended fetchAllPages 1 40 (by decide)

/-- C2 counterexample: with every index page non-empty and every job-page
fetch failing, the run terminates with final cursor 50 < 400 although the
page budget is not exhausted and no scanned page ever yielded zero links:
the `else: break` fires on a batch whose every extraction degraded to
absent. -/
theorem C2_counterexample :
    scrape_in_batches fetchJobsFail 40 = ⟨[], [0, 10, 20, 30, 40], 50, true⟩ ∧
    ([0, 10, 20, 30, 40].all (fun c => !(scrape_page fetchJobsFail c).isEmpty)) = true ∧
    (scrape_in_batches fetchJobsFail 40).finalStart < 40 * 10 :=
  ⟨by decide, by decide, by decide⟩

/-- C2 (amended): for every fetch oracle — including ones whose every fetch
fails, i.e. no Scanner/Extractor/Follower failure aborts the crawl — the run
ends either via the empty-batch break or with the page budget exhausted
(final cursor at least `maxPages * 10`). -/
theorem C2_amended (fetch : String → Option Soup) (max_pages : Nat) :
    (scrape_in_batches fetch max_pages).emptyBatchStop = true ∨
      max_pages * 10 ≤ (scrape_in_batches fetch max_pages).finalStart :=
  crawlAux_stop_cond (scrape_page fetch) (scrape_job_details fetch)
    max_pages max_pages 0 (by omega)

/-- C3 counterexample: an already-absolute link is not used unchanged —
`scrape_job_details` unconditionally prefixes the base host to it. -/
theorem C3_counterexample :
    (scrape_job_details fetchAlways "https://example.com/a").map JobRecord.URL =
      some "https://www.stellenwerk.dehttps://example.com/a" ∧
    ("https://www.stellenwerk.dehttps://example.com/a" : String) ≠ "https://example.com/a" :=
  ⟨by decide, by decide⟩

/-- C3 (amended): for every input link, the record's URL is always the base
host prefixed to the link, whether or not the link was already absolute (only
the dein-job/dein-profil sub-links are conditionally prefixed). -/
theorem C3_amended (fetch : String → Option Soup) (url : String) (r : JobRecord)
    (h : scrape_job_details fetch url = some r) :
    r.URL = "https://www.stellenwerk.de" ++ url := by
  unfold scrape_job_details at h
  cases hf : fetch ("https://www.stellenwerk.de" ++ url) with
  | none => rw [hf] at h; exact absurd h (by simp)
  | some soup =>
      rw [hf] at h
      have he : extractRecord fetch ("https://www.stellenwerk.de" ++ url) soup = r := by
        simpa using h
      rw [← he]
      rfl

/-- C3 witness: the amended statement applied at a concrete link. -/
theorem C3_witness :
    (extractRecord fetchAlways ("https://www.stellenwerk.de" ++ "/x") soupEmpty).URL =
      "https://www.stellenwerk.de" ++ "/x" :=
  C3_amended fetchAlways "/x"
    (extractRecord fetchAlways ("https://www.stellenwerk.de" ++ "/x") soupEmpty) (by decide)

/-- C4 counterexample: on a page whose `h1` is empty while a `title`-classed
element holds non-empty text, the code's Title is the empty text of the first
matching element, not the first non-empty match the claim's chain would give:
the chain takes the first found element (bs4 tags are truthy even when
empty), not the first non-empty one. -/
theorem C4_counterexample :
    (scrape_job_details fetchTitle "/j").map JobRecord.Title = some "" ∧
    firstNonEmptyText titleStrategies soupTitle = "X" ∧
    ("" : String) ≠ "X" :=
  ⟨by decide, by decide, by decide⟩

/-- C4 (amended): each structured field is extracted by its ordered selector
chain from the source — Title: `h1` tag then loose `title` class; Company:
strict `company-name` class, loose `employer` class, then `h2`; Location,
Salary, Posted Date: strict class then loose keyword class — taking the text
of the FIRST MATCHING ELEMENT even when that text is empty, and the sentinel
only when no selector matches. -/
theorem C4_amended (fetch : String → Option Soup) (url : String) (soup : Soup)
    (h : fetch ("https://www.stellenwerk.de" ++ url) = some soup) :
    (scrape_job_details fetch url).map JobRecord.Title =
        some (textOrNA (chainFind titleStrategies soup)) ∧
    (scrape_job_details fetch url).map JobRecord.Company =
        some (textOrNA (chainFind companyStrategies soup)) ∧
    (scrape_job_details fetch url).map JobRecord.Location =
        some (textOrNA (chainFind locationStrategies soup)) ∧
    (scrape_job_details fetch url).map JobRecord.Salary =
        some (textOrNA (chainFind salaryStrategies soup)) ∧
    (scrape_job_details fetch url).map JobRecord.PostedDate =
        some (textOrNA (chainFind dateStrategies soup)) := by
  have hs : scrape_job_details fetch url =
      some (extractRecord fetch ("https://www.stellenwerk.de" ++ url) soup) := by
    unfold scrape_job_details
    rw [h]
  rw [hs]
  refine ⟨?_, ?_, ?_, ?_, ?_⟩ <;>
    simp [extractRecord, titleStrategies, companyStrategies, locationStrategies,
      salaryStrategies, dateStrategies, chainFind_pair, chainFind_triple]

/-- C4 witness: the amended chain equalities at the `soupTitle` page. -/
theorem C4_witness :
    (scrape_job_details fetchTitle "/j").map JobRecord.Title =
        some (textOrNA (chainFind titleStrategies soupTitle)) ∧
    (scrape_job_details fetchTitle "/j").map JobRecord.Company =
        some (textOrNA (chainFind companyStrategies soupTitle)) ∧
    (scrape_job_details fetchTitle "/j").map JobRecord.Location =
        some (textOrNA (chainFind locationStrategies soupTitle)) ∧
    (scrape_job_details fetchTitle "/j").map JobRecord.Salary =
        some (textOrNA (chainFind salaryStrategies soupTitle)) ∧
    (scrape_job_details fetchTitle "/j").map JobRecord.PostedDate =
        some (textOrNA (chainFind dateStrategies soupTitle)) :=
  C4_amended fetchTitle "/j" soupTitle (by decide)

/-- C5 counterexample: a page whose only element is an empty `h1` yields a
JobRecord whose Title is the empty string — neither non-empty extracted text
nor the sentinel. -/
theorem C5_counterexample :
    (scrape_job_details fetchEmptyH1 "/j").map JobRecord.Title = some "" ∧
    ("" : String) ≠ "N/A" :=
  ⟨by decide, by decide⟩

/-- C5 (amended): every field of a returned JobRecord is a string, never
absent or null: each structured field is either the sentinel or the stripped
text of some page element (which may be empty), the URL is the resolved
non-empty address, and both snippet fields are at most 200 characters. -/
theorem C5_amended (fetch : String → Option Soup) (url : String) (soup : Soup) (r : JobRecord)
    (h : fetch ("https://www.stellenwerk.de" ++ url) = some soup)
    (hr : scrape_job_details fetch url = some r) :
    fieldFrom soup r.Title ∧ fieldFrom soup r.Company ∧ fieldFrom soup r.Location ∧
    fieldFrom soup r.Salary ∧ fieldFrom soup r.PostedDate ∧
    r.URL = "https://www.stellenwerk.de" ++ url ∧ r.URL.length ≠ 0 ∧
    r.DeinJob.length ≤ 200 ∧ r.DeinProfil.length ≤ 200 := by
  have hs : r = extractRecord fetch ("https://www.stellenwerk.de" ++ url) soup := by
    unfold scrape_job_details at hr
    rw [h] at hr
    exact (Option.some.injEq .. ▸ hr :).symm
  subst hs
  refine ⟨?_, ?_, ?_, ?_, ?_, rfl, ?_, ?_, ?_⟩
  · exact fieldFrom_textOrNA fun e he => by
      rcases pyOr_eq_some he with h' | h'
      · exact findTag_mem h'
      · exact findLooseClass_mem h'
  · exact fieldFrom_textOrNA fun e he => by
      rcases pyOr_eq_some he with h' | h'
      · exact findClassExact_mem h'
      · rcases pyOr_eq_some h' with h'' | h''
        · exact findLooseClass_mem h''
        · exact findTag_mem h''
  · exact fieldFrom_textOrNA fun e he => by
      rcases pyOr_eq_some he with h' | h'
      · exact findClassExact_mem h'
      · exact findLooseClass_mem h'
  · exact fieldFrom_textOrNA fun e he => by
      rcases pyOr_eq_some he with h' | h'
      · exact findClassExact_mem h'
      · exact findLooseClass_mem h'
  · exact fieldFrom_textOrNA fun e he => by
      rcases pyOr_eq_some he with h' | h'
      · exact findClassExact_mem h'
      · exact findLooseClass_mem h'
  · show ("https://www.stellenwerk.de" ++ url).data.length ≠ 0
    rw [strData_append]
    simp
  · exact clickValueOf_length ..
  · exact clickValueOf_length ..

/-- C5 witness: the amended invariant at the `soupEmptyH1` page. -/
theorem C5_witness :
    fieldFrom soupEmptyH1
        (extractRecord fetchEmptyH1 ("https://www.stellenwerk.de" ++ "/j") soupEmptyH1).Title ∧
    fieldFrom soupEmptyH1
        (extractRecord fetchEmptyH1 ("https://www.stellenwerk.de" ++ "/j") soupEmptyH1).Company ∧
    fieldFrom soupEmptyH1
        (extractRecord fetchEmptyH1 ("https://www.stellenwerk.de" ++ "/j") soupEmptyH1).Location ∧
    fieldFrom soupEmptyH1
        (extractRecord fetchEmptyH1 ("https://www.stellenwerk.de" ++ "/j") soupEmptyH1).Salary ∧
    fieldFrom soupEmptyH1
        (extractRecord fetchEmptyH1 ("https://www.stellenwerk.de" ++ "/j") soupEmptyH1).PostedDate ∧
    (extractRecord fetchEmptyH1 ("https://www.stellenwerk.de" ++ "/j") soupEmptyH1).URL =
      "https://www.stellenwerk.de" ++ "/j" ∧
    (extractRecord fetchEmptyH1 ("https://www.stellenwerk.de" ++ "/j") soupEmptyH1).URL.length ≠ 0 ∧
    (extractRecord fetchEmptyH1 ("https://www.stellenwerk.de" ++ "/j") soupEmptyH1).DeinJob.length ≤ 200 ∧
    (extractRecord fetchEmptyH1 ("https://www.stellenwerk.de" ++ "/j") soupEmptyH1).DeinProfil.length ≤ 200 :=
  C5_amended fetchEmptyH1 "/j" soupEmptyH1
    (extractRecord fetchEmptyH1 ("https://www.stellenwerk.de" ++ "/j") soupEmptyH1)
    (by decide) (by decide)

/-- C6: `scrape_page` returns a duplicate-free list; every returned href comes
from an anchor of the fetched page, contains the listing-path marker and is
free of account/login/register markers; and conversely every such anchor href
is returned. -/
theorem C6_confirmed (fetch : String → Option Soup) (start : Nat) (soup : Soup)
    (h : fetch (page_url start) = some soup) :
    (scrape_page fetch start).Nodup ∧
    (∀ l ∈ scrape_page fetch start,
        (∃ e ∈ soup.elems, e.tag = "a" ∧ e.href = some l) ∧
        strContains l "/hamburg/" = true ∧ keepHref l = true) ∧
    (∀ e ∈ soup.elems, e.tag = "a" → ∀ l, e.href = some l →
        strContains l "/hamburg/" = true → keepHref l = true →
        l ∈ scrape_page fetch start) := by
  have hs : scrape_page fetch start =
      ((soup.elems.filterMap (fun e => if e.tag == "a" then e.href else none)).filter
        (fun l => strContains l "/hamburg/" && keepHref l)).dedup := by
    unfold scrape_page
    rw [h]
  rw [hs]
  refine ⟨List.nodup_dedup _, ?_, ?_⟩
  · intro l hl
    rw [List.mem_dedup] at hl
    rcases List.mem_filter.mp hl with ⟨hmem, hcond⟩
    rcases List.mem_filterMap.mp hmem with ⟨e, he, hee⟩
    rcases Bool.and_eq_true .. |>.mp hcond with ⟨h1, h2⟩
    by_cases ht : e.tag = "a"
    · refine ⟨⟨e, he, ht, ?_⟩, h1, h2⟩
      simpa [ht] using hee
    · simp [ht] at hee
  · intro e he ht l hl h1 h2
    rw [List.mem_dedup]
    refine List.mem_filter.mpr ⟨?_, by simp [h1, h2]⟩
    exact List.mem_filterMap.mpr ⟨e, he, by simp [ht, hl]⟩

/-- C6 witness: the spec's scenario — offset-0 hrefs
`["/hamburg/jobs/1", "/hamburg/jobs/1", "/hamburg/account/x"]` scan to
exactly `["/hamburg/jobs/1"]`, duplicate-free. -/
theorem C6_witness :
    (scrape_page fetchScenario 0).Nodup ∧
    scrape_page fetchScenario 0 = ["/hamburg/jobs/1"] :=
  ⟨(C6_confirmed fetchScenario 0 soupScenario (by decide)).1, by decide⟩

/-- C7: for every fetch oracle and address, the value returned by
`scrape_click_value` — description-container text, whole-page fallback, or
the sentinel on failure — has at most 200 characters. -/
theorem C7_confirmed (fetch : String → Option Soup) (url : String) :
    (scrape_click_value fetch url).length ≤ 200 :=
  scrape_click_value_length fetch url

/-- C8: when the top-level fetch succeeds, `scrape_job_details` returns a
fully formed record, and the dein-job / dein-profil field is the sentinel
whenever the phrase anchor (with an href) is absent or its target fetch
fails; a sub-fetch failure never aborts the extraction. -/
theorem C8_confirmed (fetch : String → Option Soup) (url : String) (soup : Soup)
    (h : fetch ("https://www.stellenwerk.de" ++ url) = some soup) :
    (scrape_job_details fetch url).isSome = true ∧
    (anchorHref soup "dein job" = none →
      (scrape_job_details fetch url).map JobRecord.DeinJob = some "N/A") ∧
    (∀ l, anchorHref soup "dein job" = some l → fetch (resolveSub l) = none →
      (scrape_job_details fetch url).map JobRecord.DeinJob = some "N/A") ∧
    (anchorHref soup "dein profil" = none →
      (scrape_job_details fetch url).map JobRecord.DeinProfil = some "N/A") ∧
    (∀ l, anchorHref soup "dein profil" = some l → fetch (resolveSub l) = none →
      (scrape_job_details fetch url).map JobRecord.DeinProfil = some "N/A") := by
  have hs : scrape_job_details fetch url =
      some (extractRecord fetch ("https://www.stellenwerk.de" ++ url) soup) := by
    unfold scrape_job_details
    rw [h]
  rw [hs]
  refine ⟨rfl, ?_, ?_, ?_, ?_⟩
  · intro ha
    simp [extractRecord, clickValueOf, ha]
  · intro l ha hf
    simp [extractRecord, clickValueOf, ha, scrape_click_value, hf]
  · intro ha
    simp [extractRecord, clickValueOf, ha]
  · intro l ha hf
    simp [extractRecord, clickValueOf, ha, scrape_click_value, hf]

/-- C8 witness: a page whose "Dein Job" anchor targets an address whose fetch
fails, and which has no "dein profil" anchor: the record exists and both
fields hold the sentinel. -/
theorem C8_witness :
    (scrape_job_details fetchDeinJob "/j8").isSome = true ∧
    (scrape_job_details fetchDeinJob "/j8").map JobRecord.DeinJob = some "N/A" ∧
    (scrape_job_details fetchDeinJob "/j8").map JobRecord.DeinProfil = some "N/A" :=
  ⟨(C8_confirmed fetchDeinJob "/j8" soupDeinJob (by decide)).1,
   (C8_confirmed fetchDeinJob "/j8" soupDeinJob (by decide)).2.2.1 "/sub" (by decide) (by decide),
   (C8_confirmed fetchDeinJob "/j8" soupDeinJob (by decide)).2.2.2.1 (by decide)⟩

/-- C9 counterexample: persisting with batch number 0 does not create
`stellenwerk_jobs_batch0_...csv` — Python's `if batch_num:` treats 0 as
falsy and falls to the unbatched filename. -/
theorem C9_counterexample :
    (save_to_csv [sampleJob] (some 0) "2024-01-01_10-30").1 =
      "stellenwerk_jobs_2024-01-01_10-30.csv" ∧
    ("stellenwerk_jobs_2024-01-01_10-30.csv" : String) ≠
      "stellenwerk_jobs_batch0_2024-01-01_10-30.csv" :=
  ⟨by decide, by decide⟩

/-- C9 (amended): for batch number `N ≥ 1` and records whose fields embed no
newline character, `save_to_csv` names the file
`stellenwerk_jobs_batchN_T.csv` and its text has exactly `n + 1`
newline-terminated lines: the fixed header row followed by one row per record
in batch order. -/
theorem C9_amended (jobs : List JobRecord) (n : Nat) (ts : String) (hn : n ≠ 0)
    (hclean : ∀ r ∈ jobs, ∀ f ∈ record_row r, f.data.count '\n' = 0) :
    (save_to_csv jobs (some n) ts).1 =
      "stellenwerk_jobs_batch" ++ toString n ++ "_" ++ ts ++ ".csv" ∧
    countLF (save_to_csv jobs (some n) ts).2 = jobs.length + 1 ∧
    (save_to_csv jobs (some n) ts).2 = csvLine headerFields ++ writeRows jobs := by
  refine ⟨by simp [save_to_csv, hn], ?_, rfl⟩
  show countLF (csvLine headerFields ++ writeRows jobs) = jobs.length + 1
  unfold countLF
  rw [strData_append, List.count_append]
  rw [count_lf_csvLine headerFields (by decide), count_lf_writeRows jobs hclean]
  omega

/-- C9 witness: the spec's scenario — three records, batch number 2,
timestamp 2024-01-01_10-30 — gives `stellenwerk_jobs_batch2_2024-01-01_10-30.csv`
with exactly 4 lines. -/
theorem C9_witness :
    (save_to_csv [sampleJob, sampleJob, sampleJob] (some 2) "2024-01-01_10-30").1 =
      "stellenwerk_jobs_batch" ++ toString 2 ++ "_" ++ "2024-01-01_10-30" ++ ".csv" ∧
    countLF (save_to_csv [sampleJob, sampleJob, sampleJob] (some 2) "2024-01-01_10-30").2 =
      [sampleJob, sampleJob, sampleJob].length + 1 ∧
    (save_to_csv [sampleJob, sampleJob, sampleJob] (some 2) "2024-01-01_10-30").2 =
      csvLine headerFields ++ writeRows [sampleJob, sampleJob, sampleJob] :=
  C9_amended [sampleJob, sampleJob, sampleJob] 2 "2024-01-01_10-30" (by decide) (by decide)

/-- C10 counterexample: with `maxPages = 1`, page 0 non-empty and page 1
empty, the empty scan at cursor 10 happens while the batch already holds a
record, yet cursor 10 is scanned only once — the crawl terminates because the
budget check fails, with no second fetch of the same offset. -/
theorem C10_counterexample :
    scrape_page fetchFirstPageOnly 10 = [] ∧
    (runBatch (scrape_page fetchFirstPageOnly) (scrape_job_details fetchFirstPageOnly)
      BATCH_SIZE 0).jobs ≠ [] ∧
    10 ∈ (runBatch (scrape_page fetchFirstPageOnly) (scrape_job_details fetchFirstPageOnly)
      BATCH_SIZE 0).pages ∧
    (scrape_in_batches fetchFirstPageOnly 1).scanned.count 10 = 1 :=
  ⟨by decide, by decide, by decide, by decide⟩

/-- C10 (amended): whenever a scan at cursor `c` returns no links while the
current batch already holds a record, the batch breaks without advancing past
`c`, and — provided `c` is still below the `maxPages * 10` budget — the next
batch begins by scanning the same cursor `c` again, so `c` is fetched at
least twice over the run. -/
theorem C10_amended (scan : Nat → List String) (extract : String → Option JobRecord)
    (max_pages fuel start c : Nat)
    (hlt : start < max_pages * 10)
    (hb : (runBatch scan extract BATCH_SIZE start).jobs ≠ [])
    (hc : c ∈ (runBatch scan extract BATCH_SIZE start).pages)
    (hce : scan c = [])
    (hcb : c < max_pages * 10) :
    2 ≤ (crawlAux scan extract max_pages (fuel + 2) start).scanned.count c :=
  crawl_rescan scan extract max_pages fuel start c hlt hb hc hce hcb

/-- C10 witness: the amended re-scan property at a concrete two-page budget
where page 0 has one link and page 10 is empty: offset 10 is scanned twice. -/
theorem C10_witness :
    2 ≤ (crawlAux scanW extractW 2 2 0).scanned.count 10 :=
  C10_amended scanW extractW 2 0 0 10 (by decide) (by decide) (by decide) (by decide) (by decide)

end Stellenwerk
